import Mathlib

/-!
Verification of the IFAD job scraper (`ifad_scraper.py`).

The development shallowly embeds the program's core: an HTML document model
with the BeautifulSoup operations the scraper uses (`find_all`, `find`,
`find_parent`, `get_text(strip=True)`, attribute lookup), the two extraction
strategies of `scrape_ifad_jobs`, the description builder, the RSS tree
construction and pretty-printing of `generate_rss_feed`, and the feed-writing
decision of `main`.  Machine strings are Lean `String`s (Python `str` is a
sequence of code points, as is `String.data`), and Python truthiness of a
string is modelled as inequality with `""`.
-/

set_option maxRecDepth 4096

namespace IfadScraper

/-- An HTML node: an element with a tag, attributes and children, or a text
node.  This models the parsed BeautifulSoup document. -/
inductive HtmlNode where
| elem (tag : String) (attrs : List (String × String)) (children : List HtmlNode)
| text (s : String)

/-- The tag name of an element node. -/
def tagOf : HtmlNode → Option String
| .elem t _ _ => some t
| .text _ => none

/-- The attribute list of a node (text nodes have none). -/
def attrsOf : HtmlNode → List (String × String)
| .elem _ a _ => a
| .text _ => []

/-- `element.get(key)`: the first attribute with the given name, if any. -/
def getAttr (n : HtmlNode) (k : String) : Option String :=
(attrsOf n).lookup k

/-- Substring test on code-point sequences: Python's `needle in hay`. -/
def hasSub (needle : List Char) : List Char → Bool
| [] => needle.isPrefixOf []
| c :: t => needle.isPrefixOf (c :: t) || hasSub needle t

/-- Python's `needle in hay` on strings. -/
def pyIn (needle hay : String) : Bool :=
hasSub needle.data hay.data

/-- Python `str` whitespace, as stripped by `str.strip()`. -/
def pyWSChar (c : Char) : Bool :=
c == ' ' || c == '\t' || c == '\n' || c == '\r' || c == '\x0b' || c == '\x0c'

/-- Python's `s.strip()`: remove leading and trailing whitespace. -/
def pyStrip (s : String) : String :=
String.mk (((s.data.dropWhile pyWSChar).reverse.dropWhile pyWSChar).reverse)

/-- Python's `s.lower()` (ASCII case folding suffices for this program). -/
def pyLower (s : String) : String :=
String.mk (s.data.map Char.toLower)

/-- Python's `s.startswith(pre)`. -/
def pyStartsWith (s pre : String) : Bool :=
pre.data.isPrefixOf s.data

/-- Python's slice `s[:n]` (by code points). -/
def pyTake (s : String) (n : Nat) : String :=
String.mk (s.data.take n)

mutual

/-- `soup.find_all(pred)`: all nodes satisfying `pred`, in document order. -/
def findAll (p : HtmlNode → Bool) (n : HtmlNode) : List HtmlNode :=
match n with
| .text _ => []
| .elem t a cs =>
    (if p (.elem t a cs) then [HtmlNode.elem t a cs] else []) ++ findAllList p cs
termination_by structural n

/-- `find_all` over a list of sibling subtrees, in document order. -/
def findAllList (p : HtmlNode → Bool) (l : List HtmlNode) : List HtmlNode :=
match l with
| [] => []
| c :: cs => findAll p c ++ findAllList p cs
termination_by structural l

end

mutual

/-- `find_all` keeping, with every match, its ancestor chain (nearest
ancestor first); this supports `element.find_parent`. -/
def findAllAnc (p : HtmlNode → Bool) (n : HtmlNode) (ancs : List HtmlNode) :
    List (HtmlNode × List HtmlNode) :=
match n with
| .text _ => []
| .elem t a cs =>
    (if p (.elem t a cs) then [(HtmlNode.elem t a cs, ancs)] else []) ++
      findAllAncList p cs (HtmlNode.elem t a cs :: ancs)
termination_by structural n

/-- `findAllAnc` over sibling subtrees. -/
def findAllAncList (p : HtmlNode → Bool) (l : List HtmlNode) (ancs : List HtmlNode) :
    List (HtmlNode × List HtmlNode) :=
match l with
| [] => []
| c :: cs => findAllAnc p c ancs ++ findAllAncList p cs ancs
termination_by structural l

end

mutual

/-- The descendant text-node contents of a node, in document order. -/
def textsOf (n : HtmlNode) : List String :=
match n with
| .text s => [s]
| .elem _ _ cs => textsOfList cs
termination_by structural n

/-- `textsOf` over sibling subtrees. -/
def textsOfList (l : List HtmlNode) : List String :=
match l with
| [] => []
| c :: cs => textsOf c ++ textsOfList cs
termination_by structural l

end

/-- `element.get_text(strip=True)`: each text fragment stripped, empty
fragments dropped, the rest concatenated. -/
def getTextStrip (n : HtmlNode) : String :=
String.join (((textsOf n).map pyStrip).filter (fun s => s != ""))

/-- `soup.find(pred)`: the first match in document order. -/
def findFirst (p : HtmlNode → Bool) (n : HtmlNode) : Option HtmlNode :=
(findAll p n).head?

/-- `element.find(pred)`: the first matching descendant (self excluded). -/
def findDesc (p : HtmlNode → Bool) (n : HtmlNode) : Option HtmlNode :=
match n with
| .text _ => none
| .elem _ _ cs => (findAllList p cs).head?

/-! ## Scraper constants (from `scrape_ifad_jobs`) -/

/-- Site origin used to resolve site-relative hrefs. -/
def siteOrigin : String := "https://job.ifad.org"

/-- Fixed base path prepended to opaque href fragments. -/
def jobsBasePath : String := "https://job.ifad.org/psc/IFHRPRDE/CAREERS/JOBS/c/"

/-- Marker substring identifying Strategy 1's job-opening-ID spans. -/
def jobIdMarker : String := "HRS_APP_JBSCH_I_HRS_JOB_OPENING_ID$"

/-- Marker substring identifying job-title elements. -/
def titleMarker : String := "SCH_JOB_TITLE$"

/-- The job-detail URL built by Strategy 1, up to the job-opening id. -/
def detailUrlBase : String :=
"https://job.ifad.org/psc/IFHRPRDE/CAREERS/JOBS/c/HRS_HRAM_FL.HRS_CG_SEARCH_FL.GBL?Page=HRS_APP_JBPST&Action=U&FOCUS=Applicant&SiteId=1&JobOpeningId="

/-- The stoplist of generic navigation words (`skip_keywords`). -/
def stopKeywords : List String :=
["search", "filter", "login", "sign in", "home", "about", "all jobs"]

/-- One scraped job record (the `job_data` dict at append time). -/
structure Job where
  jobId : Option String
  title : String
  link : String
  location : String
  department : String
  description : String
deriving DecidableEq

/-- The description builder shared by both strategies: `[title]`, then
`"Location: …"` when the location is truthy and not the `"IFAD"` sentinel,
then `"Department: …"` when truthy, joined with `" | "`. -/
def mkDescription (title location department : String) : String :=
String.intercalate " | "
  ([title] ++
    (if location ≠ "" ∧ location ≠ "IFAD" then ["Location: " ++ location] else []) ++
    (if department ≠ "" then ["Department: " ++ department] else []))

/-- A `span` whose `id` attribute equals `i` exactly. -/
def spanWithExactId (i : String) (n : HtmlNode) : Bool :=
tagOf n == some "span" && getAttr n "id" == some i

/-- `soup.find('span', attrs={'id': i})`. -/
def findSpanById (doc : HtmlNode) (i : String) : Option HtmlNode :=
findFirst (spanWithExactId i) doc

/-- The positional title lookup id `SCH_JOB_TITLE$k`. -/
def titleFieldId (k : Nat) : String := "SCH_JOB_TITLE$" ++ toString k

/-- The positional location lookup id `LOCATION$k`. -/
def locationFieldId (k : Nat) : String := "LOCATION$" ++ toString k

/-- The positional department lookup id `HRS_APP_JBSCH_I_HRS_DEPT_DESCR$k`. -/
def deptFieldId (k : Nat) : String := "HRS_APP_JBSCH_I_HRS_DEPT_DESCR$" ++ toString k

/-- Strategy 1 location: text of the `LOCATION$k` span, default `"IFAD"`. -/
def lookupLocation (doc : HtmlNode) (k : Nat) : String :=
match findSpanById doc (locationFieldId k) with
| some e => getTextStrip e
| none => "IFAD"

/-- Strategy 1 department: text of the dept span at `k`, default `""`. -/
def lookupDepartment (doc : HtmlNode) (k : Nat) : String :=
match findSpanById doc (deptFieldId k) with
| some e => getTextStrip e
| none => ""

/-- Strategy 1 processing of one candidate `(positional index, job-id text)`:
the title is looked up at `SCH_JOB_TITLE$index`; the candidate is dropped if
that span is missing or has empty text. -/
def processIndexed (doc : HtmlNode) (c : Nat × String) : Option Job :=
match findSpanById doc (titleFieldId c.1) with
| none => none
| some te =>
    let title := getTextStrip te
    if title = "" then none
    else
      let link := detailUrlBase ++ c.2
      let location := lookupLocation doc c.1
      let department := lookupDepartment doc c.1
      let description := mkDescription title location department
      if title ≠ "" ∧ link ≠ "" then
        some { jobId := some c.2, title := title, link := link, location := location,
               department := department, description := description }
      else none

/-- Whether a node carries an `href` attribute at all (`href=True`). -/
def hasHrefAttr (n : HtmlNode) : Bool :=
(attrsOf n).any (fun p => p.1 == "href")

/-- An anchor carrying an `href` attribute (`element.find('a', href=True)`). -/
def anchorWithHref (n : HtmlNode) : Bool :=
tagOf n == some "a" && hasHrefAttr n

/-- The `href` value of a node, with `""` for an absent attribute (so that
`≠ ""` is Python truthiness of `element.get('href')`). -/
def selfHref (n : HtmlNode) : String :=
(getAttr n "href").getD ""

/-- Href resolution used for the element's own or a descendant's href:
absolute passthrough, site-relative prefixed with the origin, otherwise
prefixed with the fixed base path. -/
def resolveHrefFull (h : String) : String :=
if pyStartsWith h "http" then h
else if pyStartsWith h "/" then siteOrigin ++ h
else jobsBasePath ++ h

/-- Href resolution used for an ancestor row's href: absolute passthrough,
otherwise prefixed with the origin (no base-path case). -/
def resolveHrefRow (h : String) : String :=
if pyStartsWith h "http" then h else siteOrigin ++ h

/-- Strategy 2 link extraction for one element: its own truthy href, else the
first descendant anchor's href (both via `resolveHrefFull`), else the first
anchor of the nearest ancestor `tr` (via `resolveHrefRow`); `none` skips. -/
def anchorLink (el : HtmlNode) (ancs : List HtmlNode) : Option String :=
if tagOf el = some "a" ∧ selfHref el ≠ "" then some (resolveHrefFull (selfHref el))
else
  match findDesc anchorWithHref el with
  | some le => some (resolveHrefFull (selfHref le))
  | none =>
      match ancs.find? (fun an => tagOf an == some "tr") with
      | some tr =>
          match findDesc anchorWithHref tr with
          | some le => some (resolveHrefRow (selfHref le))
          | none => none
      | none => none

/-- A `span` or `div` whose `id` contains the given substring. -/
def spanDivIdHas (sub : String) (n : HtmlNode) : Bool :=
(tagOf n == some "span" || tagOf n == some "div") &&
  (getAttr n "id").any (fun v => pyIn sub v)

/-- A `span`, `div` or `p` whose `class` contains `"location"`
case-insensitively. -/
def classHasLocationWord (n : HtmlNode) : Bool :=
(tagOf n == some "span" || tagOf n == some "div" || tagOf n == some "p") &&
  (getAttr n "class").any (fun v => pyIn "location" (pyLower v))

/-- An `h2`, `h3`, `h4` or `a` element. -/
def headingOrAnchor (n : HtmlNode) : Bool :=
tagOf n == some "h2" || tagOf n == some "h3" || tagOf n == some "h4" ||
  tagOf n == some "a"

/-- Strategy 2 title: an anchor's own text; otherwise (unreached for anchor
candidates) the `POSTING_TITLE` descendant, a heading, or truncated text. -/
def anchorTitle (el : HtmlNode) : String :=
if tagOf el = some "a" then getTextStrip el
else
  match findDesc (spanDivIdHas "POSTING_TITLE") el with
  | some te => getTextStrip te
  | none =>
      match findDesc headingOrAnchor el with
      | some te => getTextStrip te
      | none => pyTake (getTextStrip el) 100

/-- Strategy 2 location: descendant with `LOCATION` in its id, else a
location-classed descendant, else (for non-anchors) the ancestor row's
`LOCATION` descendant; default `"IFAD"`. -/
def anchorLocation (el : HtmlNode) (ancs : List HtmlNode) : String :=
match findDesc (spanDivIdHas "LOCATION") el with
| some le => getTextStrip le
| none =>
    match findDesc classHasLocationWord el with
    | some le => getTextStrip le
    | none =>
        if tagOf el ≠ some "a" then
          match ancs.find? (fun an => tagOf an == some "tr") with
          | some tr =>
              match findDesc (spanDivIdHas "LOCATION") tr with
              | some le => getTextStrip le
              | none => "IFAD"
          | none => "IFAD"
        else "IFAD"

/-- Strategy 2 department: descendant with `DEPARTMENT` in its id, else `""`. -/
def anchorDept (el : HtmlNode) : String :=
match findDesc (spanDivIdHas "DEPARTMENT") el with
| some de => getTextStrip de
| none => ""

/-- Strategy 2 processing of one candidate element (with its ancestors):
link resolution, title extraction, the under-5-characters filter, the
stoplist filter, then field lookups and the description. -/
def processAnchor (c : HtmlNode × List HtmlNode) : Option Job :=
match anchorLink c.1 c.2 with
| none => none
| some link =>
    let title := anchorTitle c.1
    if title = "" ∨ title.length < 5 then none
    else if stopKeywords.any (fun kw => pyIn kw (pyLower title)) then none
    else
      let location := anchorLocation c.1 c.2
      let department := anchorDept c.1
      let description := mkDescription title location department
      if title ≠ "" ∧ link ≠ "" then
        some { jobId := none, title := title, link := link, location := location,
               department := department, description := description }
      else none

/-- Strategy 1's raw matches: spans whose id contains the job-ID marker. -/
def isJobIdSpan (n : HtmlNode) : Bool :=
tagOf n == some "span" && (getAttr n "id").any (fun v => pyIn jobIdMarker v)

/-- Strategy 2's raw matches: anchors whose id contains the title marker. -/
def isTitleAnchor (n : HtmlNode) : Bool :=
tagOf n == some "a" && (getAttr n "id").any (fun v => pyIn titleMarker v)

/-- `job_id_elements`: Strategy 1's matched spans, in document order. -/
def jobIdSpans (doc : HtmlNode) : List HtmlNode :=
findAll isJobIdSpan doc

/-- Strategy 1's `job_elements`: each matched span enumerated, keeping its
positional index and its stripped text (`{'index': idx, 'id': text}`). -/
def indexedCands (doc : HtmlNode) : List (Nat × String) :=
(jobIdSpans doc).enum.map (fun p => (p.1, getTextStrip p.2))

/-- Strategy 2's `job_elements`: matched anchors with their ancestor chains. -/
def anchorCands (doc : HtmlNode) : List (HtmlNode × List HtmlNode) :=
findAllAnc isTitleAnchor doc []

/-- The records the run would produce from Strategy 1 alone (first 50). -/
def scrapeIndexed (doc : HtmlNode) : List Job :=
((indexedCands doc).take 50).filterMap (processIndexed doc)

/-- The records the run would produce from Strategy 2 alone (first 50). -/
def scrapeAnchors (doc : HtmlNode) : List Job :=
((anchorCands doc).take 50).filterMap processAnchor

/-- `scrape_ifad_jobs` on a rendered document: Strategy 2 runs only when
Strategy 1 produced no raw matches; the winner's candidates are capped at 50
and processed in discovery order. -/
def scrape (doc : HtmlNode) : List Job :=
if (jobIdSpans doc).isEmpty then scrapeAnchors doc else scrapeIndexed doc

/-! ## The RSS serializer (`generate_rss_feed`) -/

/-- An XML node of the generated feed document. -/
inductive XmlNode where
| xelem (tag : String) (attrs : List (String × String)) (children : List XmlNode)
| xtext (s : String)

/-- The tag of an XML element. -/
def xtagOf : XmlNode → Option String
| .xelem t _ _ => some t
| .xtext _ => none

/-- The children of an XML element. -/
def xchildren : XmlNode → List XmlNode
| .xelem _ _ cs => cs
| .xtext _ => []

/-- `minidom`'s character-data escaping, per character. -/
def escChar (c : Char) : List Char :=
if c = '&' then "&amp;".data
else if c = '<' then "&lt;".data
else if c = '"' then "&quot;".data
else if c = '>' then "&gt;".data
else [c]

/-- `minidom`'s character-data escaping on a code-point sequence. -/
def escData : List Char → List Char
| [] => []
| c :: t => escChar c ++ escData t

/-- Escaping on strings, used for text nodes and attribute values. -/
def escString (s : String) : String :=
String.mk (escData s.data)

/-- The serialized attribute list: ` name="escaped value"` per attribute. -/
def attrText (a : List (String × String)) : String :=
String.join (a.map (fun p => " " ++ p.1 ++ "=\"" ++ escString p.2 ++ "\""))

/-- Indentation of `2 * n` spaces (`toprettyxml(indent='  ')`). -/
def indentOf (n : Nat) : String :=
String.mk (List.replicate (2 * n) ' ')

mutual

/-- The lines `minidom.toprettyxml(indent='  ')` writes for one node: a
childless element self-closes on one line, an element with a single text
child is written inline on one line, and any other element opens and closes
around its indented children. -/
def prettyLines (ind : Nat) (x : XmlNode) : List String :=
match x with
| .xtext s => [indentOf ind ++ escString s]
| .xelem t a [] => [indentOf ind ++ "<" ++ t ++ attrText a ++ "/>"]
| .xelem t a [.xtext s] =>
    [indentOf ind ++ "<" ++ t ++ attrText a ++ ">" ++ escString s ++ "</" ++ t ++ ">"]
| .xelem t a cs =>
    (indentOf ind ++ "<" ++ t ++ attrText a ++ ">") ::
      (prettyList (ind + 1) cs ++ [indentOf ind ++ "</" ++ t ++ ">"])
termination_by structural x

/-- `prettyLines` over a list of sibling nodes. -/
def prettyList (ind : Nat) (l : List XmlNode) : List String :=
match l with
| [] => []
| c :: cs => prettyLines ind c ++ prettyList ind cs
termination_by structural l

end

/-- Python's `'\n'.join`, on code-point sequences. -/
def pyJoinNL : List (List Char) → List Char
| [] => []
| [l] => l
| l :: ls => l ++ '\n' :: pyJoinNL ls

/-- Python's `s.split('\n')`, on code-point sequences. -/
def pySplitNL : List Char → List (List Char)
| [] => [[]]
| c :: t =>
    match pySplitNL t with
    | [] => [[]]
    | h :: r => if c = '\n' then [] :: h :: r else (c :: h) :: r

/-- Truthiness of `line.strip()`: the line has a non-whitespace character. -/
def pyKeep (l : List Char) : Bool :=
l.any (fun c => !(pyWSChar c))

/-- One feed `item` element for a job: title, link, description, and a
permalink `guid` equal to the link. -/
def mkItem (j : Job) : XmlNode :=
.xelem "item" [] [
  .xelem "title" [] [.xtext j.title],
  .xelem "link" [] [.xtext j.link],
  .xelem "description" [] [.xtext j.description],
  .xelem "guid" [("isPermaLink", "true")] [.xtext j.link]]

/-- The channel metadata children other than `lastBuildDate`. -/
def channelMetaFixed : List XmlNode :=
[ .xelem "title" [] [.xtext "IFAD Jobs"],
  .xelem "link" [] [.xtext "https://job.ifad.org/psc/IFHRPRDE/CAREERS/JOBS/c/HRS_HRAM_FL.HRS_CG_SEARCH_FL.GBL?Page=HRS_APP_SCHJOB_FL&Action=U"],
  .xelem "description" [] [.xtext "Job listings from International Fund for Agricultural Development (IFAD)"],
  .xelem "language" [] [.xtext "en-us"],
  .xelem "atom:link" [("href", "https://cinfoposte.github.io/ifad-jobs/ifad_jobs.xml"),
                      ("rel", "self"), ("type", "application/rss+xml")] [] ]

/-- The feed tree built by `generate_rss_feed`, with the render-time
timestamp string as a parameter. -/
def rssTree (jobs : List Job) (t : String) : XmlNode :=
.xelem "rss" [("xmlns:atom", "http://www.w3.org/2005/Atom"), ("version", "2.0")] [
  .xelem "channel" []
    (channelMetaFixed ++ [XmlNode.xelem "lastBuildDate" [] [.xtext t]] ++ jobs.map mkItem)]

/-- The XML declaration line emitted by `toprettyxml`. -/
def xmlDeclLine : String := "<?xml version=\"1.0\" ?>"

/-- `toprettyxml` output: the declaration and every element line, each
followed by a newline. -/
def toPrettyChars (x : XmlNode) : List Char :=
pyJoinNL ((xmlDeclLine :: prettyLines 0 x).map String.data) ++ ['\n']

/-- `generate_rss_feed`'s written file content: the pretty-printed document
with whitespace-only lines removed, rejoined with newlines. -/
def renderFeed (jobs : List Job) (t : String) : String :=
String.mk (pyJoinNL ((pySplitNL (toPrettyChars (rssTree jobs t))).filter pyKeep))

/-- `main`'s side effect on the feed file, as a function of the scrape
result: `None` (nothing written) when the record list is empty, otherwise
the file name and content written. -/
def mainOutput (jobs : List Job) (t : String) : Option (String × String) :=
if jobs.isEmpty then none else some ("ifad_jobs.xml", renderFeed jobs t)

/-- Claim-side comparator (from the claim wording, not the code, which never
parses suffixes): the numeric suffix embedded in an element id, i.e. the
digits after the final dollar sign. -/
def idSuffix (s : String) : Option Nat :=
let tl := (s.data.reverse.takeWhile (fun c => c ≠ '$')).reverse
if s.data.contains '$' ∧ tl ≠ [] ∧ tl.all Char.isDigit then
  some (tl.foldl (fun acc c => 10 * acc + (c.toNat - 48)) 0)
else none

/-- Whether the `k`-th Strategy 1 candidate passes validation (a non-empty
positional title): this never consults the candidate's own id text. -/
def validIndexed (doc : HtmlNode) (k : Nat) : Bool :=
match findSpanById doc (titleFieldId k) with
| some te => getTextStrip te != ""
| none => false

/-! ## Serializer decomposition targets (for the idempotence claim) -/

/-- The output lines preceding the `lastBuildDate` line; they do not depend
on the record list or the timestamp. -/
def feedHeadLines : List String :=
xmlDeclLine ::
  "<rss xmlns:atom=\"http://www.w3.org/2005/Atom\" version=\"2.0\">" ::
  "  <channel>" :: prettyList 2 channelMetaFixed

/-- The `lastBuildDate` output line for timestamp `t`. -/
def buildDateLine (t : String) : String :=
"    <lastBuildDate>" ++ escString t ++ "</lastBuildDate>"

/-- The closing output lines. -/
def feedCloseLines : List String := ["  </channel>", "</rss>"]

/-- Every output character before the escaped timestamp. -/
def feedHeadChars : List Char :=
pyJoinNL (feedHeadLines.map String.data) ++ '\n' :: "    <lastBuildDate>".data

/-- Every output character after the escaped timestamp: a function of the
record list alone. -/
def feedTailChars (jobs : List Job) : List Char :=
"</lastBuildDate>".data ++ '\n' ::
  pyJoinNL (((((prettyList 2 (jobs.map mkItem)).map String.data).map pySplitNL).flatten.filter
      pyKeep) ++ ["  </channel>".data, "</rss>".data])

/-- The channel element of a feed document. -/
def feedChannel (x : XmlNode) : XmlNode :=
(xchildren x).headD (.xtext "")

/-- The `item` children of the feed's channel. -/
def feedItemNodes (x : XmlNode) : List XmlNode :=
(xchildren (feedChannel x)).filter (fun c => xtagOf c == some "item")

/-! ## Concrete documents used by counterexamples and witnesses -/

/-- A strategy-1 document whose only job has the 3-character title `"Dev"`. -/
def c1doc : HtmlNode :=
.elem "html" [] [
  .elem "span" [("id", "HRS_APP_JBSCH_I_HRS_JOB_OPENING_ID$0")] [.text "7001"],
  .elem "span" [("id", "SCH_JOB_TITLE$0")] [.text "Dev"]]

/-- A document with one Strategy 1 raw match that fails validation (no
`SCH_JOB_TITLE$0` span) and one perfectly good Strategy 2 anchor. -/
def c2doc : HtmlNode :=
.elem "html" [] [
  .elem "span" [("id", "HRS_APP_JBSCH_I_HRS_JOB_OPENING_ID$0")] [.text "7001"],
  .elem "table" [] [
    .elem "tr" [] [
      .elem "td" [] [
        .elem "a" [("id", "SCH_JOB_TITLE$0"), ("href", "/careers/123")]
          [.text "Agronomist Officer"]]]]]

/-- A document whose two job-opening-ID spans carry the same suffix `$0`. -/
def c3doc : HtmlNode :=
.elem "html" [] [
  .elem "span" [("id", "HRS_APP_JBSCH_I_HRS_JOB_OPENING_ID$0")] [.text "7001"],
  .elem "span" [("id", "HRS_APP_JBSCH_I_HRS_JOB_OPENING_ID$0")] [.text "7002"],
  .elem "span" [("id", "SCH_JOB_TITLE$0")] [.text "Agronomist Lead"],
  .elem "span" [("id", "SCH_JOB_TITLE$1")] [.text "Economist Senior"]]

/-- A Strategy 2 document: one anchor candidate inside a table row, carrying
its own site-relative href. -/
def anchorDoc : HtmlNode :=
.elem "html" [] [
  .elem "table" [] [
    .elem "tr" [] [
      .elem "td" [] [
        .elem "a" [("id", "SCH_JOB_TITLE$0"), ("href", "/careers/123")]
          [.text "Agronomist Officer"]]]]]

/-- The record scraped from `anchorDoc`. -/
def anchorDocJob : Job :=
{ jobId := none, title := "Agronomist Officer",
  link := "https://job.ifad.org/careers/123", location := "IFAD",
  department := "", description := "Agronomist Officer" }

/-- A Strategy 2 document whose candidate anchor has no href of its own and
no descendant link, so the link comes from the nearest ancestor row, where
the href is an opaque PeopleSoft fragment. -/
def c6doc : HtmlNode :=
.elem "html" [] [
  .elem "table" [] [
    .elem "tr" [] [
      .elem "td" [] [.elem "a" [("id", "SCH_JOB_TITLE$0")] [.text "Programme Officer"]],
      .elem "td" [] [.elem "a" [("href", "HRS_HRAM_FL.HRS_CG_SEARCH_FL.GBL")] [.text "View"]]]]]

/-- A document whose job-ID spans carry suffixes `$1` then `$0`, out of
positional order. -/
def c10doc : HtmlNode :=
.elem "html" [] [
  .elem "span" [("id", "HRS_APP_JBSCH_I_HRS_JOB_OPENING_ID$1")] [.text "7001"],
  .elem "span" [("id", "HRS_APP_JBSCH_I_HRS_JOB_OPENING_ID$0")] [.text "7002"],
  .elem "span" [("id", "SCH_JOB_TITLE$0")] [.text "Alpha Officer"],
  .elem "span" [("id", "SCH_JOB_TITLE$1")] [.text "Beta Officer"]]

/-- The record produced for position 0 of `c10doc` (whose own suffix is 1). -/
def c10Job : Job :=
{ jobId := some "7001", title := "Alpha Officer", link := detailUrlBase ++ "7001",
  location := "IFAD", department := "", description := "Alpha Officer" }

/-- A span element for Strategy 1 whose id has the given numeric suffix. -/
def mkJobIdSpan (k : Nat) : HtmlNode :=
.elem "span" [("id", "HRS_APP_JBSCH_I_HRS_JOB_OPENING_ID$" ++ toString k)]
  [.text (toString (7000 + k))]

/-- A positional title span with a non-empty title. -/
def mkTitleSpan (k : Nat) : HtmlNode :=
.elem "span" [("id", "SCH_JOB_TITLE$" ++ toString k)] [.text ("Post " ++ toString k)]

/-- 52 Strategy 1 candidates; the candidate at position 0 has no positional
title span, positions 1–51 do.  So 51 candidates are valid, yet only the
first 50 positions are processed and position 0 yields nothing. -/
def c4doc : HtmlNode :=
.elem "html" [] ((List.range 52).map mkJobIdSpan ++ ((List.range 52).drop 1).map mkTitleSpan)

/-- 51 Strategy 1 candidates, all valid. -/
def c4wdoc : HtmlNode :=
.elem "html" [] ((List.range 51).map mkJobIdSpan ++ (List.range 51).map mkTitleSpan)

/-! ## Helper lemmas -/

theorem isPrefixOf_self (l : List Char) : l.isPrefixOf l = true := by
  induction l with
  | nil => rfl
  | cons c t ih => simp [List.isPrefixOf, ih]

theorem pyIn_self (s : String) : pyIn s s = true := by
  unfold pyIn
  cases h : s.data with
  | nil => simp [hasSub]
  | cons c t => simp [hasSub, isPrefixOf_self]

theorem length_filterMap_countP {α β : Type} (f : α → Option β) (l : List α) :
    (l.filterMap f).length = l.countP (fun a => (f a).isSome) := by
  induction l with
  | nil => rfl
  | cons a t ih =>
      cases h : f a with
      | none => simp [List.filterMap_cons, List.countP_cons, h, ih]
      | some b => simp [List.filterMap_cons, List.countP_cons, h, ih]

theorem length_filterMap_all {α β : Type} (f : α → Option β) (l : List α)
    (h : ∀ a ∈ l, (f a).isSome = true) : (l.filterMap f).length = l.length := by
  rw [length_filterMap_countP]
  exact List.countP_eq_length.mpr h

theorem string_data_append (a b : String) : (a ++ b).data = a.data ++ b.data := rfl

theorem string_eq_of_data (a b : String) (h : a.data = b.data) : a = b := by
  cases a with
  | mk xs =>
      cases b with
      | mk ys =>
          cases h
          rfl

theorem string_append_ne_empty_left (a b : String) (h : a ≠ "") : a ++ b ≠ "" := by
  intro he
  apply h
  have hd : (a ++ b).data = [] := by rw [he]
  rw [string_data_append] at hd
  have := (List.append_eq_nil.mp hd).1
  cases a with
  | mk l => cases this; rfl

theorem processIndexed_isSome (doc : HtmlNode) (k : Nat) (s : String) :
    (processIndexed doc (k, s)).isSome = validIndexed doc k := by
  unfold processIndexed validIndexed
  cases hf : findSpanById doc (titleFieldId k) with
  | none => simp
  | some te =>
      by_cases ht : getTextStrip te = "" <;>
        simp [ht, string_append_ne_empty_left detailUrlBase s (by decide)]

theorem processIndexed_inv {doc : HtmlNode} {k : Nat} {s : String} {j : Job}
    (h : processIndexed doc (k, s) = some j) :
    (∃ te, findSpanById doc (titleFieldId k) = some te ∧
       j.title = getTextStrip te ∧ getTextStrip te ≠ "") ∧
    j.jobId = some s ∧ j.link = detailUrlBase ++ s ∧
    j.location = lookupLocation doc k ∧ j.department = lookupDepartment doc k ∧
    j.description = mkDescription j.title j.location j.department := by
  unfold processIndexed at h
  cases hf : findSpanById doc (titleFieldId k) with
  | none => rw [hf] at h; exact absurd h (by simp)
  | some te =>
      rw [hf] at h
      simp only at h
      split at h
      · exact absurd h (by simp)
      · split at h
        · rename_i hne _
          rw [Option.some.injEq] at h
          subst h
          exact ⟨⟨te, rfl, rfl, hne⟩, rfl, rfl, rfl, rfl, rfl⟩
        · exact absurd h (by simp)

theorem processAnchor_inv {c : HtmlNode × List HtmlNode} {j : Job}
    (h : processAnchor c = some j) :
    j.title = anchorTitle c.1 ∧ j.title ≠ "" ∧ 5 ≤ j.title.length ∧
    (∀ kw ∈ stopKeywords, pyIn kw (pyLower j.title) = false) ∧
    anchorLink c.1 c.2 = some j.link ∧
    j.location = anchorLocation c.1 c.2 ∧ j.department = anchorDept c.1 ∧
    j.description = mkDescription j.title j.location j.department := by
  unfold processAnchor at h
  cases hl : anchorLink c.1 c.2 with
  | none => rw [hl] at h; exact absurd h (by simp)
  | some link =>
      rw [hl] at h
      simp only at h
      split at h
      · exact absurd h (by simp)
      · rename_i hlen
        split at h
        · exact absurd h (by simp)
        · rename_i hstop
          split at h
          · rename_i hne
            rw [Option.some.injEq] at h
            subst h
            push_neg at hlen
            refine ⟨rfl, hlen.1, hlen.2, ?_, rfl, rfl, rfl, rfl⟩
            intro kw hkw
            by_contra hc
            exact hstop (List.any_eq_true.mpr ⟨kw, hkw, by
              simpa using hc⟩)
          · exact absurd h (by simp)

theorem scrape_strategy2 (doc : HtmlNode) (h : (jobIdSpans doc).isEmpty = true) :
    scrape doc = scrapeAnchors doc := by
  simp [scrape, h]

theorem scrape_strategy1 (doc : HtmlNode) (h : (jobIdSpans doc).isEmpty = false) :
    scrape doc = scrapeIndexed doc := by
  simp [scrape, h]

theorem mem_scrape_strategy2 {doc : HtmlNode} {j : Job}
    (he : (jobIdSpans doc).isEmpty = true) (hm : j ∈ scrape doc) :
    ∃ c ∈ (anchorCands doc).take 50, processAnchor c = some j := by
  rw [scrape_strategy2 doc he] at hm
  exact List.mem_filterMap.mp hm

theorem mem_scrape_strategy1 {doc : HtmlNode} {j : Job}
    (he : (jobIdSpans doc).isEmpty = false) (hm : j ∈ scrape doc) :
    ∃ c ∈ (indexedCands doc).take 50, processIndexed doc c = some j := by
  rw [scrape_strategy1 doc he] at hm
  exact List.mem_filterMap.mp hm

/-! ## Claim theorems -/

/-- C1 (counterexample): `c1doc`'s accepted record, produced by the
indexed-attribute strategy, has the 3-character title `"Dev"` — the ≥5 length
filter (and the stoplist filter) are not applied on that path, refuting the
claim for records accepted "by either strategy". -/
theorem accepted_title_filters_cex :
    (scrape c1doc).map Job.title = ["Dev"] ∧
    ∃ j, j ∈ scrape c1doc ∧ j.title.length < 5 := by
  constructor
  · decide
  · decide

/-- C1 (amended): records accepted via the anchor-link strategy have a
non-empty title of at least 5 characters that contains no stoplist term
case-insensitively (hence equals none of them); records accepted via the
indexed-attribute strategy are only guaranteed a non-empty title. -/
theorem accepted_title_filters :
    (∀ doc j, (jobIdSpans doc).isEmpty = true → j ∈ scrape doc →
        j.title ≠ "" ∧ 5 ≤ j.title.length ∧
        ∀ kw ∈ stopKeywords, pyIn kw (pyLower j.title) = false ∧ pyLower j.title ≠ kw) ∧
    (∀ doc j, j ∈ scrape doc → j.title ≠ "") := by
  constructor
  · intro doc j he hm
    obtain ⟨c, _, hpc⟩ := mem_scrape_strategy2 he hm
    obtain ⟨-, hne, hlen, hstop, -⟩ := processAnchor_inv hpc
    refine ⟨hne, hlen, fun kw hkw => ⟨hstop kw hkw, ?_⟩⟩
    intro heq
    have := hstop kw hkw
    rw [heq] at this
    rw [pyIn_self] at this
    exact Bool.noConfusion this
  · intro doc j hm
    cases he : (jobIdSpans doc).isEmpty with
    | true =>
        obtain ⟨c, _, hpc⟩ := mem_scrape_strategy2 he hm
        exact (processAnchor_inv hpc).2.1
    | false =>
        obtain ⟨c, _, hpc⟩ := mem_scrape_strategy1 he hm
        obtain ⟨⟨te, -, hjt, hte⟩, -⟩ := processIndexed_inv hpc
        rw [hjt]
        exact hte

/-- C1 (witness): the anchor-strategy record of `anchorDoc` satisfies all
the title filters. -/
theorem accepted_title_filters_witness :
    anchorDocJob.title ≠ "" ∧ 5 ≤ anchorDocJob.title.length ∧
    ∀ kw ∈ stopKeywords,
      pyIn kw (pyLower anchorDocJob.title) = false ∧ pyLower anchorDocJob.title ≠ kw :=
  accepted_title_filters.1 anchorDoc anchorDocJob (by decide) (by decide)

/-- C2 (counterexample): `c2doc` has a Strategy 1 raw match that fails
validation, so Strategy 1 yields zero valid fragments, yet the anchor-link
strategy (which would accept one record) is never attempted: the run returns
no records at all. -/
theorem fallthrough_cex :
    (jobIdSpans c2doc).length = 1 ∧ scrape c2doc = [] ∧
    (scrapeAnchors c2doc).map Job.title = ["Agronomist Officer"] := by
  refine ⟨by decide, by decide, by decide⟩

/-- C2 (amended): fallthrough to the anchor-link strategy is triggered by the
absence of raw indexed-attribute matches, not by the absence of valid
fragments: with no raw matches the run equals the anchor-strategy run, while
with raw matches that all fail validation the run yields zero records
without attempting the second strategy. -/
theorem fallthrough_on_raw_matches :
    (∀ doc, (jobIdSpans doc).isEmpty = true → scrape doc = scrapeAnchors doc) ∧
    (∀ doc, (jobIdSpans doc).isEmpty = false →
        (∀ c ∈ (indexedCands doc).take 50, processIndexed doc c = none) →
        scrape doc = []) := by
  refine ⟨scrape_strategy2, fun doc he hall => ?_⟩
  rw [scrape_strategy1 doc he]
  unfold scrapeIndexed
  exact List.filterMap_eq_nil.mpr hall

/-- C2 (witness): the amended claim applied to `c2doc` (raw matches, all
invalid, empty run) and to `anchorDoc` (no raw matches, anchor run used). -/
theorem fallthrough_on_raw_matches_witness :
    scrape c2doc = [] ∧ scrape anchorDoc = scrapeAnchors anchorDoc :=
  ⟨fallthrough_on_raw_matches.2 c2doc (by decide) (by decide),
   fallthrough_on_raw_matches.1 anchorDoc (by decide)⟩

/-- C3 (counterexample): `c3doc`'s two matched job-opening-ID elements carry
the same suffix `$0`, yet two records are emitted (one per positional rank),
refuting the claimed collapse to a single latest-seen fragment. -/
theorem duplicate_suffix_cex :
    (jobIdSpans c3doc).map (fun e => getAttr e "id") =
      [some "HRS_APP_JBSCH_I_HRS_JOB_OPENING_ID$0",
       some "HRS_APP_JBSCH_I_HRS_JOB_OPENING_ID$0"] ∧
    (scrape c3doc).map Job.title = ["Agronomist Lead", "Economist Senior"] := by
  refine ⟨by decide, by decide⟩

/-- C3 (amended): duplicate id suffixes do not collapse.  Validation of the
`k`-th candidate ignores the candidate's own id text entirely, and the number
of emitted records equals the number of valid positions among the first 50 —
regardless of any duplication among the elements' own suffixes. -/
theorem duplicate_suffix_no_collapse :
    (∀ doc k s s', (processIndexed doc (k, s)).isSome = (processIndexed doc (k, s')).isSome) ∧
    (∀ doc, (jobIdSpans doc).isEmpty = false →
        (scrape doc).length =
          ((indexedCands doc).take 50).countP (fun c => (processIndexed doc c).isSome)) := by
  constructor
  · intro doc k s s'
    rw [processIndexed_isSome, processIndexed_isSome]
  · intro doc he
    rw [scrape_strategy1 doc he]
    unfold scrapeIndexed
    exact length_filterMap_countP _ _

/-- C3 (witness): the amended claim at `c3doc`, where both positions are
valid and two records are emitted. -/
theorem duplicate_suffix_no_collapse_witness :
    (scrape c3doc).length =
      ((indexedCands c3doc).take 50).countP (fun c => (processIndexed c3doc c).isSome) ∧
    (scrape c3doc).length = 2 :=
  ⟨duplicate_suffix_no_collapse.2 c3doc (by decide), by decide⟩

/-- C9: when extraction returns zero records `main` writes nothing, and when
it returns records it writes exactly one feed file with the rendered
content. -/
theorem main_skips_feed_on_empty :
    (∀ t, mainOutput [] t = none) ∧
    (∀ jobs t, jobs ≠ [] → mainOutput jobs t = some ("ifad_jobs.xml", renderFeed jobs t)) := by
  constructor
  · intro t; rfl
  · intro jobs t hne
    cases jobs with
    | nil => exact absurd rfl hne
    | cons a l => rfl

/-- C9 (witness): the second part of the claim applied to a one-record run. -/
theorem main_skips_feed_on_empty_witness :
    mainOutput [anchorDocJob] "Mon, 01 Jan 2024 00:00:00 +0000" =
      some ("ifad_jobs.xml", renderFeed [anchorDocJob] "Mon, 01 Jan 2024 00:00:00 +0000") :=
  main_skips_feed_on_empty.2 [anchorDocJob] _ (by decide)

/-- C10: the Strategy 1 field lookups for the `k`-th matched element use the
positional rank `k` (ids `SCH_JOB_TITLE$k`, `LOCATION$k`,
`HRS_APP_JBSCH_I_HRS_DEPT_DESCR$k`), never the suffix embedded in the
element's own id; consequently whenever the matched suffixes are not exactly
`0..n-1` in document order, some record's fields come from an index that
differs from its own element's suffix. -/
theorem positional_rank_join :
    (∀ doc k s j, processIndexed doc (k, s) = some j →
        (∃ te, findSpanById doc (titleFieldId k) = some te ∧ j.title = getTextStrip te) ∧
        j.location = lookupLocation doc k ∧ j.department = lookupDepartment doc k) ∧
    (∀ doc, (jobIdSpans doc).map (fun e => (getAttr e "id").bind idSuffix) ≠
          (List.range (jobIdSpans doc).length).map some →
        ∃ k, k < (jobIdSpans doc).length ∧
          ((jobIdSpans doc).map (fun e => (getAttr e "id").bind idSuffix)).get? k ≠
            some (some k)) := by
  constructor
  · intro doc k s j h
    obtain ⟨⟨te, hf, hjt, -⟩, -, -, hloc, hdep, -⟩ := processIndexed_inv h
    exact ⟨⟨te, hf, hjt⟩, hloc, hdep⟩
  · intro doc hne
    by_contra hc
    push_neg at hc
    apply hne
    apply List.ext
    intro n
    by_cases hn : n < (jobIdSpans doc).length
    · rw [hc n hn]
      rw [List.get?_map, List.get?_range hn]
      rfl
    · have hlen : (jobIdSpans doc).length ≤ n := le_of_not_lt hn
      rw [List.get?_eq_none.mpr (by simpa using hlen),
        List.get?_eq_none.mpr (by simpa using hlen)]

/-- C4 (counterexample): `c4doc`'s winning strategy yields 51 valid candidate
elements (more than 50), yet only 49 records are emitted, because the cap
applies to raw candidates and the invalid candidate at position 0 sits inside
the first 50. -/
theorem cap_cex :
    50 < (indexedCands c4doc).countP (fun c => (processIndexed c4doc c).isSome) ∧
    (scrape c4doc).length = 49 := by
  refine ⟨by decide, by decide⟩

/-- C4 (amended): only the first 50 candidate elements of the winning
strategy are processed, in discovery order; when there are more than 50
candidates and the first 50 are all valid, exactly 50 records are emitted.
An invalid candidate within the first 50 lowers the count below 50 even when
more than 50 valid candidates exist overall. -/
theorem cap_at_fifty :
    (∀ doc, (jobIdSpans doc).isEmpty = false → 50 < (indexedCands doc).length →
        (∀ c ∈ (indexedCands doc).take 50, (processIndexed doc c).isSome = true) →
        (scrape doc).length = 50) ∧
    (∀ doc, (jobIdSpans doc).isEmpty = true → 50 < (anchorCands doc).length →
        (∀ c ∈ (anchorCands doc).take 50, (processAnchor c).isSome = true) →
        (scrape doc).length = 50) := by
  constructor
  · intro doc he hlen hall
    rw [scrape_strategy1 doc he]
    unfold scrapeIndexed
    rw [length_filterMap_all _ _ hall, List.length_take]
    omega
  · intro doc he hlen hall
    rw [scrape_strategy2 doc he]
    unfold scrapeAnchors
    rw [length_filterMap_all _ _ hall, List.length_take]
    omega

/-- C4 (witness): `c4wdoc` has 51 candidates, all valid, and exactly 50
records are emitted. -/
theorem cap_at_fifty_witness : (scrape c4wdoc).length = 50 :=
  cap_at_fifty.1 c4wdoc (by decide) (by decide) (by decide)

/-- C5: the description is a deterministic function of title, location and
department: with the sentinel (or empty) location and empty department it is
exactly the title; with a non-sentinel non-empty location and non-empty
department it is `title | Location: location | Department: department`; and
every accepted record's description is built by exactly this function. -/
theorem description_deterministic :
    (∀ t l d : String, (l = "IFAD" ∨ l = "") → d = "" → mkDescription t l d = t) ∧
    (∀ t l d : String, l ≠ "IFAD" → l ≠ "" → d ≠ "" →
        mkDescription t l d = t ++ " | Location: " ++ l ++ " | Department: " ++ d) ∧
    (∀ doc j, j ∈ scrape doc →
        j.description = mkDescription j.title j.location j.department) := by
  refine ⟨?_, ?_, ?_⟩
  · intro t l d hl hd
    have hcond : ¬(l ≠ "" ∧ l ≠ "IFAD") := by
      rcases hl with h | h <;> simp [h]
    rw [mkDescription, if_neg hcond, hd, if_neg (by simp)]
    rfl
  · intro t l d hl1 hl2 hd
    rw [mkDescription, if_pos ⟨hl2, hl1⟩, if_pos hd]
    have hgo : String.intercalate " | " [t, "Location: " ++ l, "Department: " ++ d] =
        t ++ " | " ++ ("Location: " ++ l) ++ " | " ++ ("Department: " ++ d) := rfl
    simp only [List.cons_append, List.nil_append]
    rw [hgo]
    apply string_eq_of_data
    simp [string_data_append, List.append_assoc]
  · intro doc j hm
    cases he : (jobIdSpans doc).isEmpty with
    | true =>
        obtain ⟨c, _, hpc⟩ := mem_scrape_strategy2 he hm
        obtain ⟨-, -, -, -, -, hloc, hdep, hdesc⟩ := processAnchor_inv hpc
        exact hdesc
    | false =>
        obtain ⟨c, _, hpc⟩ := mem_scrape_strategy1 he hm
        obtain ⟨-, -, -, -, -, hdesc⟩ := processIndexed_inv hpc
        exact hdesc

/-- C5 (witness): the description rules evaluated at concrete fields, and on
the accepted record of `anchorDoc`. -/
theorem description_deterministic_witness :
    mkDescription "Senior Economist" "IFAD" "" = "Senior Economist" ∧
    mkDescription "Senior Economist" "Rome" "PMD" =
      "Senior Economist" ++ " | Location: " ++ "Rome" ++ " | Department: " ++ "PMD" ∧
    anchorDocJob.description =
      mkDescription anchorDocJob.title anchorDocJob.location anchorDocJob.department :=
  ⟨description_deterministic.1 _ _ _ (Or.inl rfl) rfl,
   description_deterministic.2.1 _ _ _ (by decide) (by decide) (by decide),
   description_deterministic.2.2 anchorDoc anchorDocJob (by decide)⟩

/-- C6 (counterexample): in `c6doc` the candidate anchor's only link comes
from its ancestor row and is an opaque fragment; it resolves to the origin
glued directly onto the fragment, not to the fixed base path as claimed. -/
theorem href_resolution_cex :
    (scrape c6doc).map Job.link = ["https://job.ifad.orgHRS_HRAM_FL.HRS_CG_SEARCH_FL.GBL"] ∧
    "https://job.ifad.orgHRS_HRAM_FL.HRS_CG_SEARCH_FL.GBL" ≠
      jobsBasePath ++ "HRS_HRAM_FL.HRS_CG_SEARCH_FL.GBL" := by
  refine ⟨by decide, by decide⟩

/-- C6 (amended): hrefs found on the element itself or a descendant resolve
with three cases (absolute passthrough, site-relative origin prefix,
otherwise the fixed base path), but an href taken from the nearest ancestor
row resolves with only two cases: absolute passthrough, otherwise the origin
prefix — even for opaque fragments, which therefore never receive the base
path on the ancestor-row path. -/
theorem href_resolution :
    (∀ h : String, pyStartsWith h "http" = true →
        resolveHrefFull h = h ∧ resolveHrefRow h = h) ∧
    (∀ h : String, pyStartsWith h "http" = false → pyStartsWith h "/" = true →
        resolveHrefFull h = siteOrigin ++ h) ∧
    (∀ h : String, pyStartsWith h "http" = false → pyStartsWith h "/" = false →
        resolveHrefFull h = jobsBasePath ++ h) ∧
    (∀ h : String, pyStartsWith h "http" = false → resolveHrefRow h = siteOrigin ++ h) ∧
    (∀ el ancs tr le, ¬(tagOf el = some "a" ∧ selfHref el ≠ "") →
        findDesc anchorWithHref el = none →
        ancs.find? (fun an => tagOf an == some "tr") = some tr →
        findDesc anchorWithHref tr = some le →
        anchorLink el ancs = some (resolveHrefRow (selfHref le))) ∧
    (∀ c j, processAnchor c = some j → anchorLink c.1 c.2 = some j.link) := by
  refine ⟨?_, ?_, ?_, ?_, ?_, ?_⟩
  · intro h hh; exact ⟨by simp [resolveHrefFull, hh], by simp [resolveHrefRow, hh]⟩
  · intro h hh hs; simp [resolveHrefFull, hh, hs]
  · intro h hh hs; simp [resolveHrefFull, hh, hs]
  · intro h hh; simp [resolveHrefRow, hh]
  · intro el ancs tr le hcond hdesc hfind hle
    rw [anchorLink, if_neg hcond, hdesc]
    dsimp only
    rw [hfind]
    dsimp only
    rw [hle]
  · intro c j h
    exact (processAnchor_inv h).2.2.2.2.1

/-- C6 (witness): the three resolution cases at concrete hrefs. -/
theorem href_resolution_witness :
    resolveHrefFull "/careers/123" = siteOrigin ++ "/careers/123" ∧
    resolveHrefFull "HRS_HRAM_FL.HRS_CG_SEARCH_FL.GBL" =
      jobsBasePath ++ "HRS_HRAM_FL.HRS_CG_SEARCH_FL.GBL" ∧
    resolveHrefRow "HRS_HRAM_FL.HRS_CG_SEARCH_FL.GBL" =
      siteOrigin ++ "HRS_HRAM_FL.HRS_CG_SEARCH_FL.GBL" :=
  ⟨href_resolution.2.1 _ (by decide) (by decide),
   href_resolution.2.2.1 _ (by decide) (by decide),
   href_resolution.2.2.2.1 _ (by decide)⟩

/-- C10 (witness): at `c10doc` the record at position 0 (own suffix 1) takes
its fields from index 0, and the out-of-order suffix list `[1, 0]` is
detected. -/
theorem positional_rank_join_witness :
    ((∃ te, findSpanById c10doc (titleFieldId 0) = some te ∧
        c10Job.title = getTextStrip te) ∧
      c10Job.location = lookupLocation c10doc 0 ∧
      c10Job.department = lookupDepartment c10doc 0) ∧
    ∃ k, k < (jobIdSpans c10doc).length ∧
      ((jobIdSpans c10doc).map (fun e => (getAttr e "id").bind idSuffix)).get? k ≠
        some (some k) :=
  ⟨positional_rank_join.1 c10doc 0 "7001" c10Job (by decide),
   positional_rank_join.2 c10doc (by decide)⟩

/-! ## Serializer lemmas -/

theorem filter_item_map (jobs : List Job) :
    (jobs.map mkItem).filter (fun c => xtagOf c == some "item") = jobs.map mkItem := by
  induction jobs with
  | nil => rfl
  | cons j l ih => simp [mkItem, xtagOf, List.filter_cons, ih]

/-- C8: the feed channel contains exactly one `item` per record, in input
order, and each item carries the record's title, link and description, plus
a permalink `guid` whose text equals the link; no record is filtered or
reordered. -/
theorem feed_items_faithful (jobs : List Job) (t : String) :
    feedItemNodes (rssTree jobs t) = jobs.map mkItem ∧
    ∀ j : Job, mkItem j = .xelem "item" [] [
      .xelem "title" [] [.xtext j.title],
      .xelem "link" [] [.xtext j.link],
      .xelem "description" [] [.xtext j.description],
      .xelem "guid" [("isPermaLink", "true")] [.xtext j.link]] := by
  constructor
  · have h0 : feedItemNodes (rssTree jobs t) =
        ((channelMetaFixed ++ [XmlNode.xelem "lastBuildDate" [] [.xtext t]]) ++
          jobs.map mkItem).filter (fun c => xtagOf c == some "item") := rfl
    rw [h0, List.filter_append]
    have h1 : ((channelMetaFixed ++ [XmlNode.xelem "lastBuildDate" [] [.xtext t]]).filter
        (fun c => xtagOf c == some "item")) = [] := rfl
    rw [h1, filter_item_map, List.nil_append]
  · intro j
    rfl

theorem pySplitNL_ne_nil (l : List Char) : pySplitNL l ≠ [] := by
  induction l with
  | nil => simp [pySplitNL]
  | cons c t ih =>
      simp only [pySplitNL]
      cases h : pySplitNL t with
      | nil => simp
      | cons hd r => by_cases hc : c = '\n' <;> simp [hc]

theorem pySplitNL_append_newline (a b : List Char) :
    pySplitNL (a ++ '\n' :: b) = pySplitNL a ++ pySplitNL b := by
  induction a with
  | nil =>
      simp only [List.nil_append, pySplitNL]
      cases h : pySplitNL b with
      | nil => exact absurd h (pySplitNL_ne_nil b)
      | cons hd r => simp
  | cons c a' ih =>
      simp only [List.cons_append, pySplitNL, List.append_eq]
      cases h : pySplitNL a' with
      | nil => exact absurd h (pySplitNL_ne_nil a')
      | cons hd r =>
          rw [ih, h]
          by_cases hc : c = '\n' <;> simp [hc]

theorem pySplitNL_no_newline {l : List Char} (h : '\n' ∉ l) : pySplitNL l = [l] := by
  induction l with
  | nil => rfl
  | cons c t ih =>
      have hc : ¬(c = '\n') := fun he => h (by simp [he])
      have ht : '\n' ∉ t := fun hm => h (List.mem_cons_of_mem _ hm)
      simp only [pySplitNL, ih ht]
      simp [hc]

theorem pyJoinNL_cons (a : List Char) {B : List (List Char)} (h : B ≠ []) :
    pyJoinNL (a :: B) = a ++ '\n' :: pyJoinNL B := by
  cases B with
  | nil => exact absurd rfl h
  | cons b bs => rfl

theorem pyJoinNL_append {A B : List (List Char)} (hA : A ≠ []) (hB : B ≠ []) :
    pyJoinNL (A ++ B) = pyJoinNL A ++ '\n' :: pyJoinNL B := by
  induction A with
  | nil => exact absurd rfl hA
  | cons a A' ih =>
      cases A' with
      | nil =>
          rw [List.singleton_append, pyJoinNL_cons a hB]
          rfl
      | cons a2 A'' =>
          rw [List.cons_append, pyJoinNL_cons a (by simp),
            pyJoinNL_cons a (by simp : a2 :: A'' ≠ []), ih (by simp)]
          simp [List.append_assoc]

theorem pySplitNL_join (L : List (List Char)) (h : L ≠ []) :
    pySplitNL (pyJoinNL L) = (L.map pySplitNL).flatten := by
  induction L with
  | nil => exact absurd rfl h
  | cons x L' ih =>
      cases L' with
      | nil => simp [pyJoinNL]
      | cons y R =>
          rw [pyJoinNL_cons x (by simp), pySplitNL_append_newline, ih (by simp)]
          simp

theorem escChar_no_newline {c : Char} (h : ¬(c = '\n')) : '\n' ∉ escChar c := by
  unfold escChar
  split_ifs <;> try decide
  intro hm
  rw [List.mem_singleton] at hm
  exact h hm.symm

theorem escData_no_newline {l : List Char} (h : '\n' ∉ l) : '\n' ∉ escData l := by
  induction l with
  | nil => simp [escData]
  | cons c t ih =>
      have hc : ¬(c = '\n') := fun he => h (by simp [he])
      have ht : '\n' ∉ t := fun hm => h (List.mem_cons_of_mem _ hm)
      simp only [escData, List.mem_append]
      rintro (hm | hm)
      · exact escChar_no_newline hc hm
      · exact ih ht hm

theorem split_flatten_clean {A : List (List Char)} (h : ∀ l ∈ A, '\n' ∉ l) :
    (A.map pySplitNL).flatten = A := by
  induction A with
  | nil => rfl
  | cons a A' ih =>
      simp only [List.map_cons, List.flatten_cons,
        pySplitNL_no_newline (h a (by simp))]
      rw [ih (fun l hl => h l (List.mem_cons_of_mem _ hl))]
      rfl

theorem pyKeep_of_mem {l : List Char} {c : Char} (hc : c ∈ l) (hw : pyWSChar c = false) :
    pyKeep l = true :=
  List.any_eq_true.mpr ⟨c, hc, by simp [hw]⟩

theorem pyJoinNL_snoc_empty {L : List (List Char)} (h : L ≠ []) :
    pyJoinNL (L ++ [[]]) = pyJoinNL L ++ ['\n'] := by
  rw [pyJoinNL_append h (by simp)]
  rfl

theorem buildDateLine_data (t : String) :
    (buildDateLine t).data =
      "    <lastBuildDate>".data ++ escData t.data ++ "</lastBuildDate>".data := rfl

theorem buildDateLine_no_newline {t : String} (ht : '\n' ∉ t.data) :
    '\n' ∉ (buildDateLine t).data := by
  rw [buildDateLine_data]
  intro hm
  rcases List.mem_append.mp hm with hm1 | hm2
  · rcases List.mem_append.mp hm1 with hm1a | hm1b
    · revert hm1a; decide
    · exact escData_no_newline ht hm1b
  · revert hm2; decide

theorem feed_lines_decomp (jobs : List Job) (t : String) :
    xmlDeclLine :: prettyLines 0 (rssTree jobs t) =
      feedHeadLines ++ buildDateLine t ::
        (prettyList 2 (jobs.map mkItem) ++ feedCloseLines) := by
  simp only [rssTree, prettyLines, prettyList, feedHeadLines, buildDateLine,
    feedCloseLines, channelMetaFixed, xmlDeclLine, List.append_assoc,
    List.cons_append, List.nil_append, List.cons.injEq, List.append_nil]
  refine ⟨trivial, by decide, by decide, trivial, trivial, trivial, trivial, trivial,
    ?_, ?_⟩
  · apply string_eq_of_data
    simp [string_data_append, List.append_assoc, indentOf, attrText]
  · exact congrArg (fun x => prettyList 2 (List.map mkItem jobs) ++ x) (by decide)

theorem renderFeed_decomp (jobs : List Job) (t : String) (ht : '\n' ∉ t.data) :
    renderFeed jobs t = String.mk (feedHeadChars ++ escData t.data ++ feedTailChars jobs) := by
  have hfH : (List.map pySplitNL (feedHeadLines.map String.data)).flatten
      = feedHeadLines.map String.data := split_flatten_clean (by decide)
  have hfC : (List.map pySplitNL (feedCloseLines.map String.data)).flatten
      = feedCloseLines.map String.data := split_flatten_clean (by decide)
  have hsbD := pySplitNL_no_newline (buildDateLine_no_newline ht)
  have hkH : List.filter pyKeep (feedHeadLines.map String.data)
      = feedHeadLines.map String.data := List.filter_eq_self.mpr (by decide)
  have hkC : List.filter pyKeep (feedCloseLines.map String.data)
      = feedCloseLines.map String.data := List.filter_eq_self.mpr (by decide)
  have hkbD : pyKeep (buildDateLine t).data = true :=
    pyKeep_of_mem (c := '<')
      (by rw [buildDateLine_data]
          exact List.mem_append_left _ (List.mem_append_left _ (by decide)))
      (by decide)
  unfold renderFeed toPrettyChars
  apply congrArg String.mk
  rw [feed_lines_decomp]
  rw [← pyJoinNL_snoc_empty (by simp)]
  rw [pySplitNL_join _ (by simp)]
  simp only [List.map_append, List.map_cons, List.map_nil, List.flatten_append,
    List.flatten_cons, List.flatten_nil, List.append_nil, List.nil_append,
    List.cons_append, List.append_assoc]
  rw [hfH, hfC, hsbD]
  simp only [show pySplitNL ([] : List Char) = [[]] from rfl]
  simp only [List.filter_append, List.filter_cons, hkbD, if_true, hkH, hkC,
    show pyKeep ([] : List Char) = false from rfl, if_false, List.filter_nil,
    List.append_nil, List.cons_append, List.append_assoc]
  rw [pyJoinNL_append (by simp [feedHeadLines]) (by simp),
    pyJoinNL_cons _ (by simp [feedCloseLines])]
  rw [buildDateLine_data, feedHeadChars, feedTailChars, feedCloseLines]
  simp [List.append_assoc]

/-- C7: the serialized feed is a deterministic function of the record list
and the render-time timestamp, and two serializations of the same ordered
record list differ only in the escaped timestamp inside the `lastBuildDate`
element: each output is the fixed head, then the escaped timestamp, then a
tail determined by the record list alone. -/
theorem feed_serialization_idempotent (jobs : List Job) (t t' : String)
    (ht : '\n' ∉ t.data) (ht' : '\n' ∉ t'.data) :
    renderFeed jobs t =
      String.mk (feedHeadChars ++ escData t.data ++ feedTailChars jobs) ∧
    renderFeed jobs t' =
      String.mk (feedHeadChars ++ escData t'.data ++ feedTailChars jobs) :=
  ⟨renderFeed_decomp jobs t ht, renderFeed_decomp jobs t' ht'⟩

/-- C7 (witness): two renders of the same one-record list at two concrete
timestamps decompose around their timestamps with identical head and tail. -/
theorem feed_serialization_idempotent_witness :
    renderFeed [anchorDocJob] "Mon, 01 Jan 2024 00:00:00 +0000" =
      String.mk (feedHeadChars ++ escData "Mon, 01 Jan 2024 00:00:00 +0000".data ++
        feedTailChars [anchorDocJob]) ∧
    renderFeed [anchorDocJob] "Tue, 02 Jan 2024 12:30:45 +0000" =
      String.mk (feedHeadChars ++ escData "Tue, 02 Jan 2024 12:30:45 +0000".data ++
        feedTailChars [anchorDocJob]) :=
  feed_serialization_idempotent [anchorDocJob]
    "Mon, 01 Jan 2024 00:00:00 +0000" "Tue, 02 Jan 2024 12:30:45 +0000"
    (by decide) (by decide)

end IfadScraper
